import Mathlib

/-!
# Verification of the TestBook bot's dispatch and quiz-session engine

Shallow embedding of `src/main.py` (Telegram quiz bot).  Strings are Lean
`String`s; Python string primitives (`split`, `startswith`, `int(...)`,
`str(...)`, list indexing, `strip`) are modelled by executable functions
below.  The Telegram transport and the external AI/OCR/STT services are
abstracted: outbound effects are recorded as a list of `Event`s, and
handler inputs that come from the network (OCR text, AI replies,
timestamps) are parameters.  Python exceptions are modelled by `Except`,
with the raising-time store carried in the error so that the top-level
`try/except` of `callback_query` is faithful to in-place mutation.
-/

namespace TestBook

/-! ## Python string primitives -/

/-- `pre.isPrefixOf s` on character lists: models Python `s.startswith(pre)`. -/
def pyStartsWith (s pre : String) : Bool :=
  pre.data.isPrefixOf s.data

/-- Split a character list at every occurrence of `c`; models Python
`s.split(c)` (so `splitChar c [] = [[]]`, matching `"".split(c) == [""]`). -/
def splitChar (c : Char) (l : List Char) : List (List Char) :=
  match l with
  | [] => [[]]
  | a :: rest =>
    match splitChar c rest with
    | [] => [[]]
    | g :: gs => if a = c then [] :: g :: gs else (a :: g) :: gs

/-- Python `s.split(c)` returning strings. -/
def pySplit (s : String) (c : Char) : List String :=
  (splitChar c s.data).map (fun l => ⟨l⟩)

/-- Drop the first `n` characters; models Python `s[n:]` (and, under a
`startswith` guard for an `n`-character prefix, `s.split(sep, 1)[1]`). -/
def strDrop (s : String) (n : Nat) : String := ⟨s.data.drop n⟩

/-- The decimal digit characters of `n`, given enough `fuel` (any
`fuel > n` works); structural so that the kernel can evaluate it. -/
def natDigitsCore (fuel n : Nat) : List Char :=
  match fuel with
  | 0 => []
  | f + 1 =>
    if n < 10 then [Nat.digitChar n]
    else natDigitsCore f (n / 10) ++ [Nat.digitChar (n % 10)]

/-- The decimal digit characters of `n`. -/
def natDigits (n : Nat) : List Char := natDigitsCore (n + 1) n

/-- Models Python `str(n)` for a nonnegative int. -/
def natStr (n : Nat) : String := ⟨natDigits n⟩

/-- Models Python `str(i)` for an int. -/
def intStr (i : Int) : String :=
  if i < 0 then ⟨'-' :: natDigits (-i).toNat⟩ else ⟨natDigits i.toNat⟩

/-- Numeric value of a decimal digit list (most significant first). -/
def digitsVal (l : List Char) : Nat :=
  l.foldl (fun acc c => 10 * acc + (c.toNat - 48)) 0

/-- Parse an all-digit nonempty character list; `none` models `ValueError`. -/
def parseNatDigits (l : List Char) : Option Nat :=
  if l ≠ [] ∧ l.all (fun c => c.isDigit) then some (digitsVal l) else none

/-- The ASCII characters with `str.isspace() == True`
(`\t`, `\n`, `\x0b`, `\x0c`, `\r`, `\x1c`-`\x1f`, space): what
`str.strip()` discards within the ASCII range. -/
def isPySpace (c : Char) : Bool :=
  c = ' ' ∨ c = '\t' ∨ c = '\n' ∨ c = '\r' ∨ c = '\x0b' ∨ c = '\x0c'
    ∨ c = '\x1c' ∨ c = '\x1d' ∨ c = '\x1e' ∨ c = '\x1f'

/-- The ASCII characters `int()` skips around a numeral (CPython
`Py_ISSPACE`: `\t`, `\n`, `\x0b`, `\x0c`, `\r`, space) — a strictly
smaller set than `str.isspace`: `int("\x1c5")` raises. -/
def isIntSpace (c : Char) : Bool :=
  c = ' ' ∨ c = '\t' ∨ c = '\n' ∨ c = '\r' ∨ c = '\x0b' ∨ c = '\x0c'

/-- Drop the characters satisfying `p` from both ends of a list. -/
def stripWhile (p : Char → Bool) (l : List Char) : List Char :=
  ((l.dropWhile p).reverse.dropWhile p).reverse

/-- Models Python `s.strip()`. -/
def pyStrip (s : String) : String :=
  ⟨stripWhile isPySpace s.data⟩

/-- Models Python `int(s)` on ASCII strings: surrounding whitespace is
stripped, then an optional single `+` or `-` sign must be followed
immediately by a nonempty run of decimal digits; anything else raises
`ValueError`.  Two CPython features are outside the model and are excluded
by the ASCII side conditions of the theorems that rely on failure of this
parse: non-ASCII decimal digits and non-ASCII spaces (which CPython
normalizes to ASCII first), and PEP 515 underscore grouping, which is
unreachable here because both call sites parse tokens produced by
`data.split("_")`, so the tokens never contain an underscore. -/
def pyInt (s : String) : Except String Int :=
  match stripWhile isIntSpace s.data with
  | [] => .error "ValueError"
  | c :: rest =>
    if c = '-' then
      match parseNatDigits rest with
      | some n => .ok (-(n : Int))
      | none => .error "ValueError"
    else if c = '+' then
      match parseNatDigits rest with
      | some n => .ok (n : Int)
      | none => .error "ValueError"
    else
      match parseNatDigits (c :: rest) with
      | some n => .ok (n : Int)
      | none => .error "ValueError"

/-- Python list indexing `l[i]` with negative-index support;
`.error` models `IndexError`. -/
def pyIndex (l : List α) (i : Int) : Except String α :=
  let j : Int := if i < 0 then i + l.length else i
  if j < 0 then .error "IndexError"
  else
    match l[j.toNat]? with
    | some a => .ok a
    | none => .error "IndexError"

/-- The string contains no `'_'` separator.  Holds for every chapter id of
`BOOK` and for every decimal user id, i.e. for every identifier the source
ever interpolates into a callback payload. -/
def noUnderscore (s : String) : Prop := '_' ∉ s.data

instance (s : String) : Decidable (noUnderscore s) := by
  unfold noUnderscore; infer_instance

/-- All characters of the string are ASCII.  On this domain `pyInt` agrees
with CPython `int()` exactly, so a `decode` failure coincides with the
handler raising. -/
def asciiOnly (s : String) : Prop := ∀ c ∈ s.data, c.toNat < 128

instance (s : String) : Decidable (asciiOnly s) := by
  unfold asciiOnly; infer_instance

/-! ## Data model (`§3` of the spec, `main.py` lines 83-135) -/

/-- A quiz question: `{"q": ..., "opts": [...], "a": correctIndex}`. -/
structure Question where
  q : String
  opts : List String
  a : Nat
deriving DecidableEq, Repr

/-- The in-flight daily-quiz session
`{"questions": ..., "index": ..., "score": ...}` (line 240). -/
structure QuizState where
  questions : List Question
  index : Nat
  score : Nat
deriving DecidableEq, Repr

/-- One `logs` entry `{"ts": ..., "text": ...}` (line 92). -/
structure LogEntry where
  ts : Nat
  text : String
deriving DecidableEq, Repr

/-- One `notes` entry `{"text": ..., "ts": ...}` (line 411). -/
structure NoteEntry where
  text : String
  ts : Nat
deriving DecidableEq, Repr

/-- The per-user record `{"notes": [], "scores": {}, "lang": "auto",
"logs": []}` (line 86); `pending_quiz` is a key that may be absent,
modelled as an `Option`. -/
structure UserRecord where
  notes : List NoteEntry
  scores : List (String × List Nat)
  lang : String
  logs : List LogEntry
  pending_quiz : Option QuizState
deriving DecidableEq, Repr

/-- The fresh record created by `ensure_user` (line 86). -/
def defaultRecord : UserRecord :=
  { notes := [], scores := [], lang := "auto", logs := [], pending_quiz := none }

/-- `USERDATA`: the user-id-keyed dictionary, as an association list. -/
abbrev Store := List (String × UserRecord)

/-- Dictionary lookup `USERDATA.get(uid)`. -/
def storeGet (s : Store) (uid : String) : Option UserRecord :=
  match s with
  | [] => none
  | (k, v) :: rest => if k = uid then some v else storeGet rest uid

/-- In-place update of the record stored under a present key
(`USERDATA[uid][...] = ...`); a no-op for an absent key. -/
def modifyUser (uid : String) (f : UserRecord → UserRecord) : Store → Store
  | [] => []
  | (k, v) :: rest =>
    if k = uid then (k, f v) :: modifyUser uid f rest
    else (k, v) :: modifyUser uid f rest

/-- A chapter of `BOOK` (lines 100-125). -/
structure Chapter where
  id : String
  title : String
  content : String
  quiz : List Question
deriving DecidableEq, Repr

/-! ## Content: `BOOK` and `QUIZ_BANK` (lines 100-135) -/

/-- The two fixed chapters of `BOOK`. -/
def BOOK : List Chapter :=
  [ { id := "ch1", title := "Adhyay 1: Parichay",
      content := "Yeh pehla adhyay hai. Isme mool tatvon ka parichay diya gaya hai.",
      quiz := [⟨"Parichay adhyay ka uddeshya kya hai?",
               ["Samanya jankari", "Ganit", "Bhasha", "Itihas"], 0⟩] },
    { id := "ch2", title := "Adhyay 2: Mool Sankalpnaen",
      content := "Doosra adhyay: kuch mool sankalpnaen aur udaharan.",
      quiz := [⟨"Concept A kis se sambandhit hai?", ["A", "B", "C", "D"], 1⟩] } ]

/-- `BOOK_MAP.get(chId)` (line 126): lookup by chapter id. -/
def BOOK_MAP (chId : String) : Option Chapter :=
  BOOK.find? (fun b => b.id == chId)

/-- The shared random-quiz bank (lines 129-135). -/
def QUIZ_BANK : List Question :=
  [ ⟨"Bharat ka rashtriya phool kaun sa hai?", ["Rose", "Lotus", "Lily", "Sunflower"], 1⟩,
    ⟨"2+2*2 = ?", ["6", "8", "4", "10"], 0⟩,
    ⟨"Capital of India?", ["Mumbai", "Kolkata", "New Delhi", "Chennai"], 2⟩,
    ⟨"H2O is chemical for:", ["Salt", "Water", "Oxygen", "Hydrogen"], 1⟩,
    ⟨"5*6 = ?", ["30", "25", "35", "40"], 0⟩ ]

/-! ## ActionCodec

The four callback-payload namespaces.  Encoding is read off the f-strings
that build the inline keyboards (lines 150, 156, 162, 260); decoding is
the prefix dispatch and `split("_")` parsing of `callback_query`
(lines 268, 281, 294-298, 311-316), extracted here as one function so the
Router below can branch on its result exactly as the source does. -/

/-- A structured callback action. -/
inductive Action where
  | read (chId : String)
  | quizStart (chId : String)
  | quizAnswer (chId : String) (qIdx optIdx : Int)
  | dailyAnswer (uid : String) (qIdx optIdx : Int)
deriving DecidableEq, Repr

/-- The payload string a button carries (lines 150, 156, 162, 260). -/
def Action.encode : Action → String
  | .read ch => "read_" ++ ch
  | .quizStart ch => "quiz_" ++ ch
  | .quizAnswer ch q o => "ans_" ++ ch ++ "_" ++ intStr q ++ "_" ++ intStr o
  | .dailyAnswer uid q o => "dailyans_" ++ uid ++ "_" ++ intStr q ++ "_" ++ intStr o

/-- How decoding fails: `malformed` is a raised `ValueError` (wrong token
count for the unpack, or `int()` on a non-integer token); `unknown` means
no namespace prefix matched. -/
inductive DecodeErr where
  | malformed
  | unknown
deriving DecidableEq, Repr

/-- The payload parsing of `callback_query`, in source branch order:
`read_` (line 268), `quiz_` (line 281), `ans_` (line 294), `dailyans_`
(line 311), otherwise unknown (line 333). -/
def decode (data : String) : Except DecodeErr Action :=
  if pyStartsWith data "read_" then .ok (.read (strDrop data 5))
  else if pyStartsWith data "quiz_" then .ok (.quizStart (strDrop data 5))
  else if pyStartsWith data "ans_" then
    match pySplit data '_' with
    | [_, ch, qS, oS] =>
      match pyInt qS, pyInt oS with
      | .ok q, .ok o => .ok (.quizAnswer ch q o)
      | _, _ => .error .malformed
    | _ => .error .malformed
  else if pyStartsWith data "dailyans_" then
    match pySplit data '_' with
    | [_, uid, qS, oS] =>
      match pyInt qS, pyInt oS with
      | .ok q, .ok o => .ok (.dailyAnswer uid q o)
      | _, _ => .error .malformed
    | _ => .error .malformed
  else .error .unknown

/-! ## Outbound effects -/

/-- Observable outbound effects of one handler run: `send` is
`bot.send_message(chatId, text)`, `ack` is
`bot.answer_callback_query(_, text?)`, and `completeCall` records that
`openai_chat_reply(prompt)` (the ExternalGateway `complete` call) was
invoked. -/
inductive Event where
  | send (chatId : Nat) (text : String)
  | ack (text : Option String)
  | completeCall (prompt : String)
deriving DecidableEq, Repr

/-- Decidable equality for `Except` results (used to evaluate the model on
concrete inputs). -/
instance {ε : Type u} {α : Type v} [DecidableEq ε] [DecidableEq α] :
    DecidableEq (Except ε α)
  | .ok a, .ok b =>
    if h : a = b then .isTrue (by rw [h])
    else .isFalse (fun hc => h (Except.ok.inj hc))
  | .ok a, .error e => .isFalse (fun hc => Except.noConfusion hc)
  | .error e, .ok a => .isFalse (fun hc => Except.noConfusion hc)
  | .error e, .error f =>
    if h : e = f then .isTrue (by rw [h])
    else .isFalse (fun hc => h (Except.error.inj hc))

/-! ## UserStore operations (lines 83-95) -/

/-- `ensure_user` (lines 83-87): create the default record if absent. -/
def ensure_user (uid : String) (s : Store) : Store :=
  match storeGet s uid with
  | some _ => s
  | none => s ++ [(uid, defaultRecord)]

/-- `logs[-200:]` (line 94): keep only the last 200 entries. -/
def truncLogs (l : List LogEntry) : List LogEntry :=
  l.drop (l.length - 200)

/-- `log_user` (lines 89-95): append `{ts, text}` then truncate to the
most recent 200 entries.  The wall-clock timestamp is a parameter. -/
def log_user (uid : String) (text : String) (ts : Nat) (s : Store) : Store :=
  let s := ensure_user uid s
  modifyUser uid (fun r => { r with logs := truncLogs (r.logs ++ [⟨ts, text⟩]) }) s

/-- `USERDATA[uid]["scores"].setdefault(ch_id, []).append(outcome)`
(line 304). -/
def appendScore (chId : String) (outcome : Nat) :
    List (String × List Nat) → List (String × List Nat)
  | [] => [(chId, [outcome])]
  | (k, v) :: rest =>
    if k = chId then (k, v ++ [outcome]) :: rest
    else (k, v) :: appendScore chId outcome rest

/-! ## QuizEngine and Router handlers -/

/-- `send_next_quiz_question` (lines 244-261).  Reads `USERDATA[uid]`
(raising `KeyError` if the user is absent — both call sites guarantee
presence); when the cursor has reached the end, emits the completion
summary and pops the session; otherwise emits the current question (whose
inline keyboard carries `dailyans_{uid}_{idx}_{i}` payloads, line 260). -/
def send_next_quiz_question (chat_id : Nat) (uid : String) (s : Store) :
    Except (String × Store) (Store × List Event) :=
  match storeGet s uid with
  | none => .error ("KeyError", s)
  | some r =>
    match r.pending_quiz with
    | none => .ok (s, [.send chat_id "No quiz in progress."])
    | some st =>
      if st.questions.length ≤ st.index then
        .ok (modifyUser uid (fun r => { r with pending_quiz := none }) s,
             [.send chat_id ("🏁 Quiz finished. Score: " ++ natStr st.score ++ "/"
                               ++ natStr st.questions.length)])
      else
        match st.questions[st.index]? with
        | some q => .ok (s, [.send chat_id ("Q" ++ natStr (st.index + 1) ++ ": " ++ q.q)])
        | none => .error ("IndexError", s)

/-- `cmd_dailyquiz` (lines 234-242).  The call
`random.sample(QUIZ_BANK, min(5, len(QUIZ_BANK)))` is abstracted by the
`sample` parameter; theorems constrain it by the guarantees of
`random.sample` (a without-replacement draw of `min(5, len(bank))`
elements).  Stores a fresh session with `index = 0`, `score = 0`, then
immediately sends the first question. -/
def cmd_dailyquiz (sample : List Question) (chat_id : Nat) (uid : String) (s : Store) :
    Except (String × Store) (Store × List Event) :=
  let s := ensure_user uid s
  let s := modifyUser uid
    (fun r => { r with pending_quiz := some ⟨sample, 0, 0⟩ }) s
  send_next_quiz_question chat_id uid s

/-- The session after one recorded answer (lines 323-325):
`score += 1` when the chosen option equals the question's answer index,
and `index += 1` unconditionally. -/
def answeredState (st : QuizState) (q : Question) (opt : Int) : QuizState :=
  { st with
    score := if opt = (q.a : Int) then st.score + 1 else st.score,
    index := st.index + 1 }

/-- The body of `callback_query` (lines 263-333) without its `try/except`.
`caller` is `str(call.from_user.id)` and `chat_id` is
`call.message.chat.id`.  Errors model raised exceptions and carry the
store as mutated so far.  One deviation forced by purity: in the `ans_`
branch the source builds the "Wrong" message (indexing
`quiz["opts"][quiz["a"]]`) after the score append; here the index is read
first — observationally equal because every `a` of `BOOK` is in range. -/
def callback_query_core (caller : String) (chat_id : Nat) (data : String) (s : Store) :
    Except (String × Store) (Store × List Event) :=
  match decode data with
  | .error .unknown => .ok (s, [.ack (some "Unknown action.")])
  | .error .malformed => .error ("ValueError", s)
  | .ok (.read chId) =>
    match BOOK_MAP chId with
    | none => .ok (s, [.ack (some "Not found.")])
    | some ch =>
      .ok (s, [.send chat_id ("*" ++ ch.title ++ "*\n\n" ++ ch.content), .ack none])
  | .ok (.quizStart chId) =>
    match BOOK_MAP chId with
    | none => .ok (s, [.ack (some "Not found.")])
    | some ch =>
      match ch.quiz[0]? with
      | none => .error ("IndexError", s)
      | some q => .ok (s, [.send chat_id ("❓ " ++ q.q), .ack none])
  | .ok (.quizAnswer chId qIdx optIdx) =>
    match BOOK_MAP chId with
    | none => .error ("TypeError", s)
    | some ch =>
      match pyIndex ch.quiz qIdx with
      | .error e => .error (e, s)
      | .ok quiz =>
        match quiz.opts[quiz.a]? with
        | none => .error ("IndexError", s)
        | some ansText =>
          let correct := optIdx = (quiz.a : Int)
          let uid := caller
          let s := ensure_user uid s
          let s := modifyUser uid
            (fun r => { r with scores := appendScore chId (if correct then 1 else 0) r.scores }) s
          .ok (s, [.send chat_id (if correct then "✅ Correct!" else "❌ Wrong. Ans: " ++ ansText),
                   .ack none])
  | .ok (.dailyAnswer uid qIdx optIdx) =>
    match (storeGet s uid).bind (fun r => r.pending_quiz) with
    | none => .ok (s, [.ack (some "Quiz not found.")])
    | some st =>
      match pyIndex st.questions qIdx with
      | .error e => .error (e, s)
      | .ok q =>
        let st' := answeredState st q optIdx
        let s := modifyUser uid (fun r => { r with pending_quiz := some st' }) s
        match send_next_quiz_question chat_id uid s with
        | .error e => .error e
        | .ok (s2, msgs) => .ok (s2, .ack (some "Answer recorded.") :: msgs)

/-- `callback_query` with its `try/except` (lines 264-340): any raised
exception is converted into an `"Error occurred."` acknowledgment, keeping
whatever mutations already happened. -/
def callback_query (caller : String) (chat_id : Nat) (data : String) (s : Store) :
    Store × List Event :=
  match callback_query_core caller chat_id data s with
  | .ok r => r
  | .error (_, s') => (s', [.ack (some "Error occurred.")])

/-- `handle_photo` (lines 371-395) from the point where OCR succeeded:
`extracted` is the return of `ocr_image_from_bytes` and `aiReply`
abstracts `openai_chat_reply`.  With empty/whitespace text it stops after
a "no text found" message; otherwise it echoes the text, logs it, calls
the completion service, sends and logs the reply. -/
def handle_photo (extracted : String) (aiReply : String → String) (ts1 ts2 : Nat)
    (chat_id : Nat) (uid : String) (s : Store) : Store × List Event :=
  let s := ensure_user uid s
  if pyStrip extracted = "" then
    (s, [.send chat_id "Could not extract text from image."])
  else
    let s := log_user uid ("Photo text: " ++ extracted) ts1 s
    let prompt := "Solve or explain the following question:\n\n" ++ extracted
    let reply := aiReply prompt
    let s := log_user uid ("Bot: " ++ reply) ts2 s
    (s, [.send chat_id ("📝 Extracted text:\n" ++ extracted),
         .completeCall prompt, .send chat_id reply])

/-! ## Lemmas about the Python string primitives -/

/-- Structure eta for `String`. -/
theorem string_mk_data (s : String) : String.mk s.data = s := rfl

theorem isPrefixOf_ne_head {a b : Char} (l1 l2 : List Char) (h : a ≠ b) :
    (a :: l1).isPrefixOf (b :: l2) = false := by
  simp [List.isPrefixOf, beq_eq_false_iff_ne, h]

theorem isPrefixOf_append_self (l t : List Char) : l.isPrefixOf (l ++ t) = true := by
  induction l with
  | nil => simp [List.isPrefixOf]
  | cons a as ih => simp [List.isPrefixOf, ih]

theorem pyStartsWith_append (p t : String) : pyStartsWith (p ++ t) p = true := by
  simp [pyStartsWith, String.data_append, isPrefixOf_append_self]

theorem splitChar_ne_nil (c : Char) (l : List Char) : splitChar c l ≠ [] := by
  cases l with
  | nil => simp [splitChar]
  | cons a rest =>
    rw [splitChar]
    cases h : splitChar c rest with
    | nil => simp
    | cons g gs => dsimp only; split <;> simp

theorem splitChar_of_not_mem {c : Char} {l : List Char} (h : c ∉ l) :
    splitChar c l = [l] := by
  induction l with
  | nil => rfl
  | cons a rest ih =>
    have ha : a ≠ c := fun hc => h (hc ▸ List.mem_cons_self a rest)
    have hr : c ∉ rest := fun hc => h (List.mem_cons_of_mem a hc)
    simp [splitChar, ih hr, ha]

theorem splitChar_append {c : Char} {l1 : List Char} (l2 : List Char) (h : c ∉ l1) :
    splitChar c (l1 ++ c :: l2) = l1 :: splitChar c l2 := by
  induction l1 with
  | nil =>
    rw [List.nil_append, splitChar]
    cases hs : splitChar c l2 with
    | nil => exact absurd hs (splitChar_ne_nil c l2)
    | cons g gs => simp
  | cons a rest ih =>
    have ha : a ≠ c := fun hc => h (hc ▸ List.mem_cons_self a rest)
    have hr : c ∉ rest := fun hc => h (List.mem_cons_of_mem a hc)
    rw [List.cons_append, splitChar, ih hr]
    simp [ha]

/-! ### Decimal digits -/

theorem digitsVal_append_singleton (l : List Char) (c : Char) :
    digitsVal (l ++ [c]) = 10 * digitsVal l + (c.toNat - 48) := by
  simp [digitsVal, List.foldl_append]

/-- A decimal digit character is plain: it is none of the separator, sign
and whitespace characters the parsers branch on. -/
def plainDigit (c : Char) : Prop :=
  c.isDigit = true ∧ c ≠ '_' ∧ c ≠ '-' ∧ c ≠ '+' ∧ isPySpace c = false

theorem digitChar_spec {d : Nat} (h : d < 10) :
    plainDigit (Nat.digitChar d) ∧ (Nat.digitChar d).toNat - 48 = d := by
  interval_cases d <;> exact ⟨⟨rfl, by decide, by decide, by decide, by decide⟩, rfl⟩

theorem natDigitsCore_spec : ∀ n fuel, n < fuel →
    (∀ ch ∈ natDigitsCore fuel n, plainDigit ch) ∧
      natDigitsCore fuel n ≠ [] ∧ digitsVal (natDigitsCore fuel n) = n := by
  intro n
  induction n using Nat.strong_induction_on with
  | _ n ih =>
    intro fuel hfuel
    match fuel, hfuel with
    | f + 1, hfuel =>
      by_cases h10 : n < 10
      · refine ⟨?_, ?_, ?_⟩
        · intro ch hch
          simp only [natDigitsCore, if_pos h10, List.mem_singleton] at hch
          subst hch
          exact (digitChar_spec h10).1
        · simp [natDigitsCore, if_pos h10]
        · simp only [natDigitsCore, if_pos h10, digitsVal, List.foldl_cons, List.foldl_nil]
          have := (digitChar_spec h10).2
          omega
      · have hlt : n / 10 < n := Nat.div_lt_self (by omega) (by omega)
        have hf : n / 10 < f := by omega
        obtain ⟨hall, hne, hval⟩ := ih (n / 10) hlt f hf
        have hmod : n % 10 < 10 := Nat.mod_lt n (by omega)
        refine ⟨?_, ?_, ?_⟩
        · intro ch hch
          simp only [natDigitsCore, if_neg h10, List.mem_append, List.mem_singleton] at hch
          rcases hch with hch | hch
          · exact hall ch hch
          · subst hch
            exact (digitChar_spec hmod).1
        · simp [natDigitsCore, if_neg h10]
        · rw [natDigitsCore, if_neg h10, digitsVal_append_singleton, hval,
              (digitChar_spec hmod).2]
          omega

theorem natDigits_spec (n : Nat) :
    (∀ ch ∈ natDigits n, plainDigit ch) ∧
      natDigits n ≠ [] ∧ digitsVal (natDigits n) = n :=
  natDigitsCore_spec n (n + 1) (Nat.lt_succ_self n)

theorem dropWhile_eq_self_of_all {p : Char → Bool} {l : List Char}
    (h : ∀ c ∈ l, p c = false) : l.dropWhile p = l := by
  cases l with
  | nil => rfl
  | cons a rest =>
    rw [List.dropWhile_cons, h a (List.mem_cons_self a rest)]
    simp

theorem stripWhile_of_all {p : Char → Bool} {l : List Char} (h : ∀ c ∈ l, p c = false) :
    stripWhile p l = l := by
  unfold stripWhile
  rw [dropWhile_eq_self_of_all h,
      dropWhile_eq_self_of_all (fun c hc => h c (List.mem_reverse.mp hc)),
      List.reverse_reverse]

theorem isIntSpace_false_of_isPySpace_false {c : Char} (h : isPySpace c = false) :
    isIntSpace c = false := by
  simp only [isPySpace, decide_eq_false_iff_not, not_or] at h
  simp only [isIntSpace, decide_eq_false_iff_not, not_or]
  tauto

theorem parseNatDigits_natDigits (n : Nat) : parseNatDigits (natDigits n) = some n := by
  obtain ⟨hall, hne, hval⟩ := natDigits_spec n
  simp only [parseNatDigits, List.all_eq_true]
  rw [if_pos ⟨hne, fun c hc => (hall c hc).1⟩, hval]

theorem pyInt_natStr (n : Nat) : pyInt (natStr n) = .ok (n : Int) := by
  obtain ⟨hall, hne, _⟩ := natDigits_spec n
  have hstrip : stripWhile isIntSpace (natStr n).data = natDigits n :=
    stripWhile_of_all
      (fun c hc => isIntSpace_false_of_isPySpace_false (hall c hc).2.2.2.2)
  simp only [pyInt, hstrip]
  cases hd : natDigits n with
  | nil => exact absurd hd hne
  | cons c rest =>
    have hc := hall c (by rw [hd]; exact List.mem_cons_self c rest)
    simp only [if_neg hc.2.2.1, if_neg hc.2.2.2.1]
    rw [← hd, parseNatDigits_natDigits]

theorem pyInt_intStr (i : Int) : pyInt (intStr i) = .ok i := by
  by_cases hneg : i < 0
  · have h1 : (0 : Int) ≤ -i := by omega
    obtain ⟨hall, _, _⟩ := natDigits_spec (-i).toNat
    have hstrip : stripWhile isIntSpace ('-' :: natDigits (-i).toNat)
        = '-' :: natDigits (-i).toNat := by
      refine stripWhile_of_all ?_
      intro c hc
      rcases List.mem_cons.mp hc with hc | hc
      · subst hc; decide
      · exact isIntSpace_false_of_isPySpace_false (hall c hc).2.2.2.2
    simp only [intStr, if_pos hneg, pyInt, hstrip, if_pos rfl, if_true]
    rw [parseNatDigits_natDigits]
    dsimp only
    rw [Int.toNat_of_nonneg h1, neg_neg]
  · simp only [intStr, if_neg hneg]
    rw [show String.mk (natDigits i.toNat) = natStr i.toNat from rfl, pyInt_natStr]
    congr 1
    omega

theorem not_underscore_mem_intStr (i : Int) : '_' ∉ (intStr i).data := by
  intro hmem
  by_cases hneg : i < 0
  · simp only [intStr, if_pos hneg,
      show (String.mk ('-' :: natDigits (-i).toNat)).data = '-' :: natDigits (-i).toNat from rfl,
      List.mem_cons] at hmem
    rcases hmem with h | h
    · exact absurd h (by decide)
    · exact ((natDigits_spec (-i).toNat).1 '_' h).2.1 rfl
  · simp only [intStr, if_neg hneg,
      show (String.mk (natDigits i.toNat)).data = natDigits i.toNat from rfl] at hmem
    exact ((natDigits_spec i.toNat).1 '_' hmem).2.1 rfl

/-! ### Decode-of-encode -/

theorem pyStartsWith_of_data {s pre : String} (t : List Char)
    (hs : s.data = pre.data ++ t) : pyStartsWith s pre = true := by
  simp [pyStartsWith, hs, isPrefixOf_append_self]

theorem pyStartsWith_false_of_head_ne {s pre : String} {c c' : Char}
    {t t' : List Char} (hs : s.data = c :: t) (hp : pre.data = c' :: t')
    (h : c' ≠ c) : pyStartsWith s pre = false := by
  simp [pyStartsWith, hs, hp, isPrefixOf_ne_head, h]

theorem decode_encode_read (ch : String) :
    decode (Action.encode (.read ch)) = .ok (.read ch) := by
  have h1 : pyStartsWith (Action.encode (.read ch)) "read_" = true :=
    pyStartsWith_append "read_" ch
  simp only [decode, h1, if_true]
  have h2 : strDrop (Action.encode (.read ch)) 5 = ch := by
    simp only [strDrop, Action.encode, String.data_append]
    exact string_mk_data ch
  rw [h2]

theorem decode_encode_quizStart (ch : String) :
    decode (Action.encode (.quizStart ch)) = .ok (.quizStart ch) := by
  have hd : (Action.encode (.quizStart ch)).data = 'q' :: ("uiz_".data ++ ch.data) := by
    simp only [Action.encode, String.data_append]
    rfl
  have h1 : pyStartsWith (Action.encode (.quizStart ch)) "read_" = false :=
    pyStartsWith_false_of_head_ne hd rfl (by decide)
  have h2 : pyStartsWith (Action.encode (.quizStart ch)) "quiz_" = true :=
    pyStartsWith_append "quiz_" ch
  simp only [decode, h1, h2]
  norm_num
  have h3 : strDrop (Action.encode (.quizStart ch)) 5 = ch := by
    simp only [strDrop, Action.encode, String.data_append]
    exact string_mk_data ch
  rw [h3]

theorem decode_encode_quizAnswer (ch : String) (q o : Int) (hU : noUnderscore ch) :
    decode (Action.encode (.quizAnswer ch q o)) = .ok (.quizAnswer ch q o) := by
  have hd : (Action.encode (.quizAnswer ch q o)).data
      = "ans".data ++ '_' :: (ch.data ++ '_' :: ((intStr q).data ++ '_' :: (intStr o).data)) := by
    simp only [Action.encode, String.data_append, List.append_assoc]
    rfl
  have hd' : (Action.encode (.quizAnswer ch q o)).data
      = 'a' :: ("ns_".data ++ (ch.data ++ '_' :: ((intStr q).data ++ '_' :: (intStr o).data))) := by
    rw [hd]; rfl
  have h1 : pyStartsWith (Action.encode (.quizAnswer ch q o)) "read_" = false :=
    pyStartsWith_false_of_head_ne hd' rfl (by decide)
  have h2 : pyStartsWith (Action.encode (.quizAnswer ch q o)) "quiz_" = false :=
    pyStartsWith_false_of_head_ne hd' rfl (by decide)
  have h3 : pyStartsWith (Action.encode (.quizAnswer ch q o)) "ans_" = true := by
    refine pyStartsWith_of_data (ch.data ++ '_' :: ((intStr q).data ++ '_' :: (intStr o).data)) ?_
    rw [hd]; rfl
  have hsplit : pySplit (Action.encode (.quizAnswer ch q o)) '_'
      = ["ans", ch, intStr q, intStr o] := by
    rw [pySplit, hd, splitChar_append _ (by decide),
        splitChar_append _ hU,
        splitChar_append _ (not_underscore_mem_intStr q),
        splitChar_of_not_mem (not_underscore_mem_intStr o)]
    simp only [List.map_cons, List.map_nil, string_mk_data]
  simp only [decode, h1, h2, h3, hsplit, pyInt_intStr]
  norm_num

theorem decode_encode_dailyAnswer (uid : String) (q o : Int) (hU : noUnderscore uid) :
    decode (Action.encode (.dailyAnswer uid q o)) = .ok (.dailyAnswer uid q o) := by
  have hd : (Action.encode (.dailyAnswer uid q o)).data
      = "dailyans".data ++ '_' :: (uid.data ++ '_' :: ((intStr q).data ++ '_' :: (intStr o).data)) := by
    simp only [Action.encode, String.data_append, List.append_assoc]
    rfl
  have hd' : (Action.encode (.dailyAnswer uid q o)).data
      = 'd' :: ("ailyans_".data ++ (uid.data ++ '_' :: ((intStr q).data ++ '_' :: (intStr o).data))) := by
    rw [hd]; rfl
  have h1 : pyStartsWith (Action.encode (.dailyAnswer uid q o)) "read_" = false :=
    pyStartsWith_false_of_head_ne hd' rfl (by decide)
  have h2 : pyStartsWith (Action.encode (.dailyAnswer uid q o)) "quiz_" = false :=
    pyStartsWith_false_of_head_ne hd' rfl (by decide)
  have h3 : pyStartsWith (Action.encode (.dailyAnswer uid q o)) "ans_" = false :=
    pyStartsWith_false_of_head_ne hd' rfl (by decide)
  have h4 : pyStartsWith (Action.encode (.dailyAnswer uid q o)) "dailyans_" = true := by
    refine pyStartsWith_of_data (uid.data ++ '_' :: ((intStr q).data ++ '_' :: (intStr o).data)) ?_
    rw [hd]; rfl
  have hsplit : pySplit (Action.encode (.dailyAnswer uid q o)) '_'
      = ["dailyans", uid, intStr q, intStr o] := by
    rw [pySplit, hd, splitChar_append _ (by decide),
        splitChar_append _ hU,
        splitChar_append _ (not_underscore_mem_intStr q),
        splitChar_of_not_mem (not_underscore_mem_intStr o)]
    simp only [List.map_cons, List.map_nil, string_mk_data]
  simp only [decode, h1, h2, h3, h4, hsplit, pyInt_intStr]
  norm_num

/-! ## Store lemmas -/

theorem storeGet_modifyUser_self (uid : String) (f : UserRecord → UserRecord) (s : Store) :
    storeGet (modifyUser uid f s) uid = (storeGet s uid).map f := by
  induction s with
  | nil => rfl
  | cons p rest ih =>
    obtain ⟨k, v⟩ := p
    by_cases hk : k = uid
    · subst hk
      simp [modifyUser, storeGet]
    · simp [modifyUser, storeGet, hk, ih]

theorem storeGet_modifyUser_ne {uid v : String} (hne : v ≠ uid)
    (f : UserRecord → UserRecord) (s : Store) :
    storeGet (modifyUser uid f s) v = storeGet s v := by
  induction s with
  | nil => rfl
  | cons p rest ih =>
    obtain ⟨k, w⟩ := p
    by_cases hk : k = uid
    · subst hk
      simp [modifyUser, storeGet, Ne.symm hne, ih]
    · simp [modifyUser, storeGet, hk, ih]

theorem modifyUser_modifyUser (uid : String) (f g : UserRecord → UserRecord) (s : Store) :
    modifyUser uid f (modifyUser uid g s) = modifyUser uid (fun r => f (g r)) s := by
  induction s with
  | nil => rfl
  | cons p rest ih =>
    obtain ⟨k, v⟩ := p
    by_cases hk : k = uid
    · subst hk
      simp [modifyUser, ih]
    · simp [modifyUser, hk, ih]

theorem storeGet_append_single_ne {uid v : String} (hne : v ≠ uid) (s : Store)
    (r : UserRecord) : storeGet (s ++ [(uid, r)]) v = storeGet s v := by
  induction s with
  | nil => simp [storeGet, Ne.symm hne]
  | cons p rest ih =>
    obtain ⟨k, w⟩ := p
    by_cases hk : k = v <;> simp [storeGet, hk, ih]

theorem storeGet_append_single_self (uid : String) (s : Store) (r : UserRecord) :
    storeGet (s ++ [(uid, r)]) uid = some ((storeGet s uid).getD r) := by
  induction s with
  | nil => simp [storeGet]
  | cons p rest ih =>
    obtain ⟨k, w⟩ := p
    by_cases hk : k = uid <;> simp [storeGet, hk, ih]

theorem storeGet_ensure_self (uid : String) (s : Store) :
    storeGet (ensure_user uid s) uid = some ((storeGet s uid).getD defaultRecord) := by
  unfold ensure_user
  cases h : storeGet s uid with
  | some r => rw [h]; rfl
  | none => rw [storeGet_append_single_self, h]

theorem ensure_user_of_present {uid : String} {s : Store} {r : UserRecord}
    (h : storeGet s uid = some r) : ensure_user uid s = s := by
  unfold ensure_user
  rw [h]

theorem storeGet_ensure_ne {uid v : String} (hne : v ≠ uid) (s : Store) :
    storeGet (ensure_user uid s) v = storeGet s v := by
  unfold ensure_user
  cases h : storeGet s uid with
  | some r => rfl
  | none => exact storeGet_append_single_ne hne s defaultRecord

/-! ## Log truncation (C7) -/

theorem truncLogs_idem_append (l m : List LogEntry) :
    truncLogs (truncLogs l ++ m) = truncLogs (l ++ m) := by
  unfold truncLogs
  have e1 : l.length - 200 + (l.length - (l.length - 200) + m.length - 200)
      = l.length + m.length - 200 := by omega
  have e2 : l.length - (l.length - 200) + m.length - 200 - (l.length - (l.length - 200))
      = l.length + m.length - 200 - l.length := by omega
  rw [List.drop_append_eq_append_drop, List.drop_drop, List.drop_append_eq_append_drop,
      List.length_append, List.length_append, List.length_drop, e1, e2]

/-- All the `log_user` appends of `entries`, oldest first. -/
def appendAllLogs (uid : String) (entries : List LogEntry) (s : Store) : Store :=
  entries.foldl (fun s e => log_user uid e.text e.ts s) s

theorem log_user_of_present {uid : String} {s : Store} {r : UserRecord}
    (h : storeGet s uid = some r) (text : String) (ts : Nat) :
    log_user uid text ts s
      = modifyUser uid (fun r => { r with logs := truncLogs (r.logs ++ [⟨ts, text⟩]) }) s := by
  unfold log_user
  rw [ensure_user_of_present h]

theorem truncLogs_length_le (l : List LogEntry) : (truncLogs l).length ≤ 200 := by
  unfold truncLogs
  rw [List.length_drop]
  omega

theorem truncLogs_of_le {l : List LogEntry} (h : l.length ≤ 200) : truncLogs l = l := by
  unfold truncLogs
  rw [show l.length - 200 = 0 by omega, List.drop_zero]

set_option maxRecDepth 8192 in
theorem appendAllLogs_of_present {uid : String} {entries : List LogEntry} :
    ∀ {s : Store} {r : UserRecord}, storeGet s uid = some r → r.logs.length ≤ 200 →
    storeGet (appendAllLogs uid entries s) uid
      = some { r with logs := truncLogs (r.logs ++ entries) } := by
  induction entries with
  | nil =>
    intro s r h hlen
    rw [appendAllLogs, List.foldl_nil, h, List.append_nil, truncLogs_of_le hlen]
  | cons e rest ih =>
    intro s r h hlen
    obtain ⟨ts, tx⟩ := e
    show storeGet (appendAllLogs uid rest (log_user uid tx ts s)) uid = _
    rw [log_user_of_present h]
    have h2 : storeGet
        (modifyUser uid (fun r => { r with logs := truncLogs (r.logs ++ [⟨ts, tx⟩]) }) s) uid
        = some { r with logs := truncLogs (r.logs ++ [⟨ts, tx⟩]) } := by
      rw [storeGet_modifyUser_self, h]
      rfl
    have h3 : ({ r with logs := truncLogs (r.logs ++ [⟨ts, tx⟩]) } : UserRecord).logs.length
        ≤ 200 := truncLogs_length_le _
    rw [ih h2 h3]
    have h4 : truncLogs (truncLogs (r.logs ++ [⟨ts, tx⟩]) ++ rest)
        = truncLogs (r.logs ++ ⟨ts, tx⟩ :: rest) := by
      rw [truncLogs_idem_append, List.append_assoc, List.singleton_append]
    rw [show ({ r with logs := truncLogs (r.logs ++ [⟨ts, tx⟩]) } : UserRecord).logs
          = truncLogs (r.logs ++ [⟨ts, tx⟩]) from rfl, h4]

/-! ## Handler lemmas -/

theorem send_next_none {chat_id : Nat} {uid : String} {s : Store} {r : UserRecord}
    (hr : storeGet s uid = some r) (hp : r.pending_quiz = none) :
    send_next_quiz_question chat_id uid s = .ok (s, [.send chat_id "No quiz in progress."]) := by
  unfold send_next_quiz_question
  rw [hr]
  dsimp only
  rw [hp]

theorem send_next_finish {chat_id : Nat} {uid : String} {s : Store} {r : UserRecord}
    {st : QuizState} (hr : storeGet s uid = some r) (hp : r.pending_quiz = some st)
    (hfin : st.questions.length ≤ st.index) :
    send_next_quiz_question chat_id uid s
      = .ok (modifyUser uid (fun r => { r with pending_quiz := none }) s,
             [.send chat_id ("🏁 Quiz finished. Score: " ++ natStr st.score ++ "/"
                               ++ natStr st.questions.length)]) := by
  unfold send_next_quiz_question
  rw [hr]
  dsimp only
  rw [hp]
  dsimp only
  rw [if_pos hfin]

theorem send_next_question {chat_id : Nat} {uid : String} {s : Store} {r : UserRecord}
    {st : QuizState} (hr : storeGet s uid = some r) (hp : r.pending_quiz = some st)
    (hlt : st.index < st.questions.length) :
    send_next_quiz_question chat_id uid s
      = .ok (s, [.send chat_id ("Q" ++ natStr (st.index + 1) ++ ": "
                                  ++ (st.questions.get ⟨st.index, hlt⟩).q)]) := by
  unfold send_next_quiz_question
  rw [hr]
  dsimp only
  rw [hp]
  dsimp only
  rw [if_neg (by omega), List.getElem?_eq_getElem hlt]
  rfl

theorem cmd_dailyquiz_empty (chat_id : Nat) (uid : String) (s : Store) :
    cmd_dailyquiz [] chat_id uid s
      = .ok (modifyUser uid (fun r => { r with pending_quiz := none }) (ensure_user uid s),
             [.send chat_id "🏁 Quiz finished. Score: 0/0"]) := by
  unfold cmd_dailyquiz
  have h1 : storeGet
      (modifyUser uid (fun r => { r with pending_quiz := some ⟨[], 0, 0⟩ }) (ensure_user uid s)) uid
      = some { (storeGet s uid).getD defaultRecord with pending_quiz := some ⟨[], 0, 0⟩ } := by
    rw [storeGet_modifyUser_self, storeGet_ensure_self]
    rfl
  rw [send_next_finish h1 rfl (by simp), modifyUser_modifyUser]
  rfl

theorem cmd_dailyquiz_nonempty (q0 : Question) (qs : List Question)
    (chat_id : Nat) (uid : String) (s : Store) :
    cmd_dailyquiz (q0 :: qs) chat_id uid s
      = .ok (modifyUser uid (fun r => { r with pending_quiz := some ⟨q0 :: qs, 0, 0⟩ })
               (ensure_user uid s),
             [.send chat_id ("Q1: " ++ q0.q)]) := by
  unfold cmd_dailyquiz
  have h1 : storeGet
      (modifyUser uid (fun r => { r with pending_quiz := some ⟨q0 :: qs, 0, 0⟩ })
        (ensure_user uid s)) uid
      = some { (storeGet s uid).getD defaultRecord with pending_quiz := some ⟨q0 :: qs, 0, 0⟩ } := by
    rw [storeGet_modifyUser_self, storeGet_ensure_self]
    rfl
  rw [send_next_question h1 rfl (by simp)]
  rfl

/-- After the daily-answer branch has recorded an answer (line 326), the
user's stored record carries the advanced session. -/
theorem recordedStore_get {uid : String} {s : Store} {r : UserRecord}
    (hr : storeGet s uid = some r) (st : QuizState) (q : Question) (optIdx : Int) :
    storeGet
      (modifyUser uid (fun r => { r with pending_quiz := some (answeredState st q optIdx) }) s) uid
      = some { r with pending_quiz := some (answeredState st q optIdx) } := by
  rw [storeGet_modifyUser_self, hr]
  rfl

/-- Master lemma for a daily-quiz answer callback that finds a session and
a valid question index, in the case where the advanced cursor has reached
the end: the session is recorded then immediately cleared, and the
completion summary is emitted. -/
theorem callback_dailyans_finish {caller : String} {chat_id : Nat} {uid : String}
    {qIdx optIdx : Int} {data : String} {s : Store} {r : UserRecord} {st : QuizState}
    {q : Question}
    (hdec : decode data = .ok (.dailyAnswer uid qIdx optIdx)) (hr : storeGet s uid = some r)
    (hp : r.pending_quiz = some st) (hq : pyIndex st.questions qIdx = .ok q)
    (hfin : st.questions.length ≤ st.index + 1) :
    callback_query caller chat_id data s
      = (modifyUser uid (fun r => { r with pending_quiz := none }) s,
         [.ack (some "Answer recorded."),
          .send chat_id ("🏁 Quiz finished. Score: "
            ++ natStr (if optIdx = (q.a : Int) then st.score + 1 else st.score) ++ "/"
            ++ natStr st.questions.length)]) := by
  unfold callback_query callback_query_core
  rw [hdec]
  dsimp only
  rw [show (storeGet s uid).bind (fun r => r.pending_quiz) = some st by rw [hr]; exact hp]
  dsimp only
  rw [hq]
  dsimp only
  rw [send_next_finish (recordedStore_get hr st q optIdx) rfl hfin]
  dsimp only
  rw [modifyUser_modifyUser]
  rfl

/-- Master lemma for a daily-quiz answer callback that finds a session and
a valid question index, in the case where questions remain: the updated
session is stored and the next question is emitted. -/
theorem callback_dailyans_next {caller : String} {chat_id : Nat} {uid : String}
    {qIdx optIdx : Int} {data : String} {s : Store} {r : UserRecord} {st : QuizState}
    {q : Question}
    (hdec : decode data = .ok (.dailyAnswer uid qIdx optIdx)) (hr : storeGet s uid = some r)
    (hp : r.pending_quiz = some st) (hq : pyIndex st.questions qIdx = .ok q)
    (hlt : st.index + 1 < st.questions.length) :
    callback_query caller chat_id data s
      = (modifyUser uid (fun r => { r with pending_quiz := some (answeredState st q optIdx) }) s,
         [.ack (some "Answer recorded."),
          .send chat_id ("Q" ++ natStr (st.index + 2) ++ ": "
            ++ (st.questions.get ⟨st.index + 1, hlt⟩).q)]) := by
  unfold callback_query callback_query_core
  rw [hdec]
  dsimp only
  rw [show (storeGet s uid).bind (fun r => r.pending_quiz) = some st by rw [hr]; exact hp]
  dsimp only
  rw [hq]
  dsimp only
  rw [send_next_question (recordedStore_get hr st q optIdx) rfl
      (show (answeredState st q optIdx).index < (answeredState st q optIdx).questions.length
        from hlt)]
  rfl

/-- A daily-quiz answer callback for a user with no pending session. -/
theorem callback_dailyans_no_session {caller : String} {chat_id : Nat} {uid : String}
    {qIdx optIdx : Int} {data : String} {s : Store}
    (hdec : decode data = .ok (.dailyAnswer uid qIdx optIdx))
    (hns : (storeGet s uid).bind (fun r => r.pending_quiz) = none) :
    callback_query caller chat_id data s
      = (s, [.ack (some "Quiz not found.")]) := by
  unfold callback_query callback_query_core
  rw [hdec]
  dsimp only
  rw [hns]

/-- A daily-quiz answer callback whose question index raises `IndexError`
at line 321: the exception is caught and nothing is mutated (the raise
happens before the session write). -/
theorem callback_dailyans_index_error {caller : String} {chat_id : Nat} {uid : String}
    {qIdx optIdx : Int} {data : String} {s : Store} {st : QuizState} {e : String}
    (hdec : decode data = .ok (.dailyAnswer uid qIdx optIdx))
    (hst : (storeGet s uid).bind (fun r => r.pending_quiz) = some st)
    (hq : pyIndex st.questions qIdx = .error e) :
    callback_query caller chat_id data s
      = (s, [.ack (some "Error occurred.")]) := by
  unfold callback_query callback_query_core
  rw [hdec]
  dsimp only
  rw [hst]
  dsimp only
  rw [hq]

/-- Python indexing at a nonnegative in-range index. -/
theorem pyIndex_ofNat {l : List α} {i : Nat} (h : i < l.length) :
    pyIndex l (i : Int) = .ok (l.get ⟨i, h⟩) := by
  have h0 : ¬((i : Int) < 0) := by omega
  simp only [pyIndex, if_neg h0, Int.toNat_natCast]
  rw [List.getElem?_eq_getElem h]
  rfl

/-- The `caller` identity is only ever read in the `ans_` (chapter-quiz
answer) branch of `callback_query`; every other branch ignores it. -/
theorem callback_caller_irrelevant (c1 c2 : String) (chat_id : Nat) (data : String)
    (s : Store) (h : ∀ ch q o, decode data ≠ .ok (.quizAnswer ch q o)) :
    callback_query c1 chat_id data s = callback_query c2 chat_id data s := by
  unfold callback_query callback_query_core
  cases hd : decode data with
  | error e => cases e <;> rfl
  | ok a =>
    cases a with
    | read ch => rfl
    | quizStart ch => rfl
    | quizAnswer ch q o => exact absurd hd (h ch q o)
    | dailyAnswer u q o => rfl

/-- Any payload starting with `dailyans_` decodes to a `dailyAnswer`
action or fails as malformed — never to another namespace. -/
theorem decode_dailyans_shape {data : String} (h : pyStartsWith data "dailyans_" = true) :
    (∃ u q o, decode data = .ok (.dailyAnswer u q o)) ∨ decode data = .error .malformed := by
  have hpre : ("dailyans_" : String).data.isPrefixOf data.data = true := h
  rw [ List.isPrefixOf_iff_prefix] at hpre
  obtain ⟨t, ht⟩ := hpre
  have hd : data.data = 'd' :: ("ailyans_".data ++ t) := by rw [← ht]; rfl
  have h1 : pyStartsWith data "read_" = false :=
    pyStartsWith_false_of_head_ne hd rfl (by decide)
  have h2 : pyStartsWith data "quiz_" = false :=
    pyStartsWith_false_of_head_ne hd rfl (by decide)
  have h3 : pyStartsWith data "ans_" = false :=
    pyStartsWith_false_of_head_ne hd rfl (by decide)
  unfold decode
  rw [h1, h2, h3, h]
  norm_num
  cases pySplit data '_' with
  | nil => right; rfl
  | cons a rest =>
    match rest with
    | [] => right; rfl
    | [b] => right; rfl
    | [b, c] => right; rfl
    | [b, c, d] =>
      cases hq : pyInt c with
      | error e => right; dsimp only; rw [hq]
      | ok q =>
        cases ho : pyInt d with
        | error e => right; dsimp only; rw [hq, ho]
        | ok o => left; exact ⟨b, q, o, by dsimp only; rw [hq, ho]⟩
    | b :: c :: d :: e :: rest => right; rfl

/-! ## Claims -/

/-- Namespace tag of an action: which of the four payload prefixes
(`read_`, `quiz_`, `ans_`, `dailyans_`) it encodes into. -/
def Action.namespaceTag : Action → Nat
  | .read _ => 0
  | .quizStart _ => 1
  | .quizAnswer _ _ _ => 2
  | .dailyAnswer _ _ _ => 3

/-- A structured action is valid when its identifier field (chapter id or
user id) contains no `'_'` separator — true of every chapter id of `BOOK`
and of every decimal user id the source interpolates (line 260). -/
def Action.valid : Action → Prop
  | .read ch => noUnderscore ch
  | .quizStart ch => noUnderscore ch
  | .quizAnswer ch _ _ => noUnderscore ch
  | .dailyAnswer uid _ _ => noUnderscore uid

instance : (a : Action) → Decidable a.valid
  | .read ch => inferInstanceAs (Decidable (noUnderscore ch))
  | .quizStart ch => inferInstanceAs (Decidable (noUnderscore ch))
  | .quizAnswer ch _ _ => inferInstanceAs (Decidable (noUnderscore ch))
  | .dailyAnswer uid _ _ => inferInstanceAs (Decidable (noUnderscore uid))

/-- C5: for every valid structured action `x`, `decode (encode x) = ok x`,
and `encode` is injective per namespace: two valid actions of the same
namespace with the same payload string are equal. -/
theorem C5_codec_roundtrip (x : Action) (hx : x.valid) :
    decode x.encode = .ok x
    ∧ ∀ y : Action, y.valid → y.namespaceTag = x.namespaceTag →
        y.encode = x.encode → y = x := by
  have hrt : ∀ z : Action, z.valid → decode z.encode = .ok z := by
    intro z hz
    cases z with
    | read ch => exact decode_encode_read ch
    | quizStart ch => exact decode_encode_quizStart ch
    | quizAnswer ch q o => exact decode_encode_quizAnswer ch q o hz
    | dailyAnswer uid q o => exact decode_encode_dailyAnswer uid q o hz
  refine ⟨hrt x hx, ?_⟩
  intro y hy hns he
  have h2 := hrt y hy
  rw [he, hrt x hx] at h2
  exact (Except.ok.inj h2).symm

/-- C5 witness: the round trip at a concrete daily-answer action. -/
theorem C5_witness :
    decode (Action.encode (.dailyAnswer "42" 3 1)) = .ok (.dailyAnswer "42" 3 1) :=
  (C5_codec_roundtrip (.dailyAnswer "42" 3 1) (by decide)).1

/-- The acknowledgment text an undecodable payload receives: exceptions
from a recognized-but-malformed payload are answered by the `except`
handler (line 336), unmatched payloads by the final fallthrough
(line 333). -/
def decodeErrAck : DecodeErr → String
  | .malformed => "Error occurred."
  | .unknown => "Unknown action."

/-- C6 (amended): a callback payload on which the handler's parsing fails
— wrong token count for its namespace, or an integer field that `int()`
rejects — or which matches no namespace prefix at all, is handled without
crash and without store mutation; but only the no-prefix case receives
the `"Unknown action."` acknowledgment (line 333) — parse failures inside
a recognized namespace raise and are answered `"Error occurred."` by the
`except` handler (line 336).  On ASCII payloads (the `asciiOnly` side
condition) `decode data = .error` coincides exactly with the handler
raising during parsing: `pyInt` agrees with `int()` there, including
`"+"`-signed and whitespace-padded tokens.  Payloads whose tokens *do*
parse — even non-canonical ones never emitted by `encode`, such as
`"+0"` or `"00"` — are processed like any answer and may mutate the
store; the claim's scope ("wrong token count or non-integer fields")
excludes them. -/
theorem C6_undecodable_payload (caller : String) (chat_id : Nat) (data : String)
    (s : Store) (e : DecodeErr) (hA : asciiOnly data) (h : decode data = .error e) :
    callback_query caller chat_id data s
      = (s, [.ack (some (decodeErrAck e))]) := by
  cases e <;>
    (unfold callback_query callback_query_core
     rw [h]
     rfl)

/-- C6 counterexample: `"ans_ch1_0"` has the `ans_` namespace prefix but
the wrong token count, so it was not produced by `encode`; the Router
answers `"Error occurred."` — not the "unknown action" acknowledgment the
claim requires (though indeed without mutation or crash). -/
theorem C6_counterexample :
    decode "ans_ch1_0" = .error .malformed
    ∧ callback_query "9" 7 "ans_ch1_0" [("1", defaultRecord)]
        = ([("1", defaultRecord)], [.ack (some "Error occurred.")]) := by
  exact ⟨by decide, by decide⟩

/-- C6 witness: a payload matching no namespace gets `"Unknown action."`
with the store untouched. -/
theorem C6_witness :
    callback_query "9" 7 "bogus" [] = ([], [.ack (some "Unknown action.")]) :=
  C6_undecodable_payload "9" 7 "bogus" [] .unknown (by decide) (by decide)

set_option maxRecDepth 8192 in
/-- C7: starting from a freshly created user record (empty `logs`), after
the `log_user` appends of `entries` (N of them) the stored log is exactly
the most recent `min(N, 200)`-entry suffix of `entries`, in arrival order;
moreover any single `log_user` call leaves at most 200 entries, whatever
the prior state. -/
theorem C7_appendLog_cap (uid : String) (entries : List LogEntry) (s : Store)
    (r : UserRecord) (hr : storeGet s uid = some r) (h0 : r.logs = []) :
    storeGet (appendAllLogs uid entries s) uid
      = some { r with logs := entries.drop (entries.length - 200) }
    ∧ (entries.drop (entries.length - 200)).length = min entries.length 200
    ∧ ∀ (text : String) (ts : Nat) (s2 : Store) (r2 : UserRecord),
        storeGet (log_user uid text ts s2) uid = some r2 → r2.logs.length ≤ 200 := by
  refine ⟨?_, ?_, ?_⟩
  · rw [appendAllLogs_of_present hr (by rw [h0]; exact Nat.zero_le 200)]
    rw [h0]
    rfl
  · rw [List.length_drop]
    omega
  · intro text ts s2 r2 hr2
    unfold log_user at hr2
    rw [storeGet_modifyUser_self, storeGet_ensure_self] at hr2
    dsimp only [Option.map] at hr2
    injection hr2 with h2
    rw [← h2]
    exact truncLogs_length_le _

/-- C7 witness: one append to a fresh user stores that one entry. -/
theorem C7_witness :
    storeGet (appendAllLogs "1" [⟨5, "hello"⟩] (ensure_user "1" [])) "1"
      = some { defaultRecord with
               logs := ([⟨5, "hello"⟩] : List LogEntry).drop (1 - 200) } :=
  (C7_appendLog_cap "1" [⟨5, "hello"⟩] (ensure_user "1" []) defaultRecord
    (by decide) rfl).1

/-- C9: a photo whose extracted text is empty or whitespace-only makes the
handler send the "no text found" message and stop: no `completeCall`
event is emitted, and the tapping user's record (in particular its
`logs`) is untouched beyond `ensure_user`. -/
theorem C9_photo_empty_text (extracted : String) (aiReply : String → String)
    (ts1 ts2 chat_id : Nat) (uid : String) (s : Store)
    (h : pyStrip extracted = "") :
    handle_photo extracted aiReply ts1 ts2 chat_id uid s
      = (ensure_user uid s, [.send chat_id "Could not extract text from image."])
    ∧ (∀ r, storeGet s uid = some r → storeGet (ensure_user uid s) uid = some r)
    ∧ ∀ p : String, Event.completeCall p
        ∉ [Event.send chat_id "Could not extract text from image."] := by
  refine ⟨?_, ?_, ?_⟩
  · unfold handle_photo
    rw [h, if_pos rfl]
  · intro r hr
    rw [ensure_user_of_present hr]
    exact hr
  · intro p
    simp

/-- C9 witness: a whitespace-only OCR result at concrete inputs. -/
theorem C9_witness :
    handle_photo "  \n " (fun p => p) 1 2 7 "1" []
      = (ensure_user "1" [], [.send 7 "Could not extract text from image."]) :=
  (C9_photo_empty_text "  \n " (fun p => p) 1 2 7 "1" [] (by decide)).1

/-- C2 (amended): `cmd_dailyquiz` never fails with an `EmptyBank` error.
With an empty bank the sample is necessarily empty, an empty session is
stored and then immediately cleared by `send_next_quiz_question`, and a
`"Score: 0/0"` completion message — not an error — is emitted.  With a
non-empty bank a session of `min(5, len(bank))` questions (distinct
whenever the bank has no duplicates) is created and stored with
`index = 0` and `score = 0`, and the first question is emitted.  The
`sample` parameter abstracts `random.sample(bank, min(5, len(bank)))`:
a without-replacement draw, hence a sub-permutation of the bank of size
`min(5, len(bank))`. -/
theorem C2_start_random (bank sample : List Question) (chat_id : Nat) (uid : String)
    (s : Store) (hsub : sample.Subperm bank)
    (hlen : sample.length = min 5 bank.length) :
    (bank = [] →
       cmd_dailyquiz sample chat_id uid s
         = .ok (modifyUser uid (fun r => { r with pending_quiz := none })
                  (ensure_user uid s),
                [.send chat_id "🏁 Quiz finished. Score: 0/0"]))
    ∧ (bank ≠ [] → ∃ s2 evs,
         cmd_dailyquiz sample chat_id uid s = .ok (s2, evs)
         ∧ storeGet s2 uid
             = some { (storeGet s uid).getD defaultRecord with
                      pending_quiz := some ⟨sample, 0, 0⟩ }
         ∧ sample.length = min 5 bank.length
         ∧ (bank.Nodup → sample.Nodup)) := by
  constructor
  · intro hb
    subst hb
    have : sample = [] := by
      rw [← List.length_eq_zero]
      rw [hlen]
      rfl
    subst this
    exact cmd_dailyquiz_empty chat_id uid s
  · intro hb
    have hpos : 0 < sample.length := by
      rw [hlen]
      have : 0 < bank.length := List.length_pos.mpr hb
      omega
    obtain ⟨q0, qs, rfl⟩ : ∃ q0 qs, sample = q0 :: qs := by
      cases sample with
      | nil => simp at hpos
      | cons a as => exact ⟨a, as, rfl⟩
    refine ⟨_, _, cmd_dailyquiz_nonempty q0 qs chat_id uid s, ?_, hlen, ?_⟩
    · rw [storeGet_modifyUser_self, storeGet_ensure_self]
      rfl
    · intro hnd
      obtain ⟨l, hperm, hsl⟩ := hsub
      exact (hperm.nodup_iff).mp (hsl.nodup hnd)

/-- C2 counterexample: with the empty bank, `random.sample([], 0)`
deterministically returns `[]`, and the handler does not fail: it first
stores an empty session (the snapshot the source saves at line 241), then
finishes it at once, emitting `"🏁 Quiz finished. Score: 0/0"`. -/
theorem C2_counterexample :
    storeGet (modifyUser "1" (fun r => { r with pending_quiz := some ⟨[], 0, 0⟩ })
        (ensure_user "1" [])) "1"
      = some { defaultRecord with pending_quiz := some ⟨[], 0, 0⟩ }
    ∧ cmd_dailyquiz [] 7 "1" []
        = .ok ([("1", defaultRecord)], [.send 7 "🏁 Quiz finished. Score: 0/0"]) := by
  exact ⟨by decide, by decide⟩

/-- C2 witness: the whole five-question bank is a valid sample of itself. -/
theorem C2_witness :
    ∃ s2 evs, cmd_dailyquiz QUIZ_BANK 7 "1" [] = .ok (s2, evs)
      ∧ storeGet s2 "1"
          = some { (storeGet ([] : Store) "1").getD defaultRecord with
                   pending_quiz := some ⟨QUIZ_BANK, 0, 0⟩ }
      ∧ QUIZ_BANK.length = min 5 QUIZ_BANK.length
      ∧ (QUIZ_BANK.Nodup → QUIZ_BANK.Nodup) :=
  (C2_start_random QUIZ_BANK QUIZ_BANK 7 "1" [] (List.Subperm.refl _) (by decide)).2
    (by decide)

/-- A mid-quiz store for concrete tests: user `"1"` is at `index = 1`,
`score = 0` over the first two bank questions. -/
def c1Store : Store :=
  [("1", { defaultRecord with pending_quiz := some ⟨QUIZ_BANK.take 2, 1, 0⟩ })]

/-- C1 counterexample: the session of user `"1"` sits at `index = 1`, yet
the replayed payload `"dailyans_1_0_1"` for question 0 (≠ 1) is accepted:
the answer is scored against question 0 (correct, so `score` becomes 1),
`index` advances to 2, and the session is cleared with a completion
message `"Score: 1/2"` — both `score` and `index` were mutated. -/
theorem C1_counterexample :
    (storeGet c1Store "1").bind (fun r => r.pending_quiz) = some ⟨QUIZ_BANK.take 2, 1, 0⟩
    ∧ decode "dailyans_1_0_1" = .ok (.dailyAnswer "1" 0 1)
    ∧ (storeGet (callback_query "9" 7 "dailyans_1_0_1" c1Store).fst "1").bind
        (fun r => r.pending_quiz) = none
    ∧ (callback_query "9" 7 "dailyans_1_0_1" c1Store).snd
        = [.ack (some "Answer recorded."), .send 7 "🏁 Quiz finished. Score: 1/2"] :=
  ⟨by decide, by decide, by decide, by decide⟩

/-- C1 (amended): a daily-quiz answer whose `questionIndex` differs from
the session's current `index` is NOT rejected: whenever the submitted
index is a valid Python index into the session's questions, the handler
still advances `index` by 1 and adds 1 to `score` exactly when the chosen
option matches that (possibly stale) question's answer, clearing the
session if the advanced index reaches the question count. -/
theorem C1_no_dedupe (caller : String) (chat_id : Nat) (uid : String) (qIdx optIdx : Int)
    (s : Store) (r : UserRecord) (st : QuizState) (q : Question)
    (hU : noUnderscore uid) (hr : storeGet s uid = some r) (hp : r.pending_quiz = some st)
    (hq : pyIndex st.questions qIdx = .ok q) (hne : qIdx ≠ (st.index : Int)) :
    storeGet (callback_query caller chat_id
        (Action.encode (.dailyAnswer uid qIdx optIdx)) s).fst uid
      = some { r with pending_quiz :=
          (if st.questions.length ≤ st.index + 1 then none
           else some ⟨st.questions, st.index + 1,
                      if optIdx = (q.a : Int) then st.score + 1 else st.score⟩) } := by
  have hdec := decode_encode_dailyAnswer uid qIdx optIdx hU
  by_cases hfin : st.questions.length ≤ st.index + 1
  · rw [callback_dailyans_finish hdec hr hp hq hfin]
    dsimp only
    rw [storeGet_modifyUser_self, hr, if_pos hfin]
    rfl
  · rw [callback_dailyans_next hdec hr hp hq (by omega)]
    dsimp only
    rw [recordedStore_get hr st q optIdx, if_neg hfin]
    rfl

/-- C1 witness: at the concrete mid-quiz store, the out-of-order answer
mutates the session (here: finishes and clears it). -/
theorem C1_witness :
    storeGet (callback_query "9" 7 (Action.encode (.dailyAnswer "1" 0 1)) c1Store).fst "1"
      = some { defaultRecord with pending_quiz := none } :=
  C1_no_dedupe "9" 7 "1" 0 1 c1Store
    { defaultRecord with pending_quiz := some ⟨QUIZ_BANK.take 2, 1, 0⟩ }
    ⟨QUIZ_BANK.take 2, 1, 0⟩ ((QUIZ_BANK.take 2).getD 0 ⟨"", [], 0⟩)
    (by decide) (by decide) rfl (by decide) (by decide)

/-- A fresh-session store for concrete tests: user `"1"` at `index = 0`,
`score = 0` over the first two bank questions. -/
def c3Store : Store :=
  [("1", { defaultRecord with pending_quiz := some ⟨QUIZ_BANK.take 2, 0, 0⟩ })]

/-- C3: submitting the answer for the session's current index advances
`index` by exactly 1, and `score` by exactly 1 precisely when the chosen
option equals the question's correct option index; the updated values are
stored (or, when the quiz thereby completes, reported in the completion
message before the session is cleared). -/
theorem C3_score_current (caller : String) (chat_id : Nat) (uid : String) (optIdx : Int)
    (s : Store) (r : UserRecord) (st : QuizState)
    (hU : noUnderscore uid) (hr : storeGet s uid = some r) (hp : r.pending_quiz = some st)
    (hlt : st.index < st.questions.length) :
    storeGet (callback_query caller chat_id
        (Action.encode (.dailyAnswer uid (st.index : Int) optIdx)) s).fst uid
      = some { r with pending_quiz :=
          (if st.questions.length ≤ st.index + 1 then none
           else some ⟨st.questions, st.index + 1,
             if optIdx = ((st.questions.get ⟨st.index, hlt⟩).a : Int)
             then st.score + 1 else st.score⟩) }
    ∧ (st.questions.length ≤ st.index + 1 →
        (callback_query caller chat_id
            (Action.encode (.dailyAnswer uid (st.index : Int) optIdx)) s).snd
          = [.ack (some "Answer recorded."),
             .send chat_id ("🏁 Quiz finished. Score: "
               ++ natStr (if optIdx = ((st.questions.get ⟨st.index, hlt⟩).a : Int)
                          then st.score + 1 else st.score)
               ++ "/" ++ natStr st.questions.length)]) := by
  have hdec := decode_encode_dailyAnswer uid (st.index : Int) optIdx hU
  have hq : pyIndex st.questions (st.index : Int) = .ok (st.questions.get ⟨st.index, hlt⟩) :=
    pyIndex_ofNat hlt
  constructor
  · by_cases hfin : st.questions.length ≤ st.index + 1
    · rw [callback_dailyans_finish hdec hr hp hq hfin]
      dsimp only
      rw [storeGet_modifyUser_self, hr, if_pos hfin]
      rfl
    · rw [callback_dailyans_next hdec hr hp hq (by omega)]
      dsimp only
      rw [recordedStore_get hr st _ optIdx, if_neg hfin]
      rfl
  · intro hfin
    rw [callback_dailyans_finish hdec hr hp hq hfin]

/-- C3 witness: answering question 0 correctly at the fresh two-question
store stores `index = 1`, `score = 1`. -/
theorem C3_witness :
    storeGet (callback_query "9" 7 (Action.encode (.dailyAnswer "1" 0 1)) c3Store).fst "1"
      = some { defaultRecord with pending_quiz := some ⟨QUIZ_BANK.take 2, 1, 1⟩ } :=
  (C3_score_current "9" 7 "1" 1 c3Store
    { defaultRecord with pending_quiz := some ⟨QUIZ_BANK.take 2, 0, 0⟩ }
    ⟨QUIZ_BANK.take 2, 0, 0⟩
    (by decide) (by decide) rfl (by decide)).1

/-- C10: a daily-quiz answer callback is driven entirely by the user id
embedded in the payload string: the tapping user's identity is ignored
(two distinct callers get identical results), and only the payload-named
user record can be read or mutated. -/
theorem C10_payload_identity (c1 c2 : String) (chat_id : Nat) (data : String) (s : Store)
    (h : pyStartsWith data "dailyans_" = true) :
    callback_query c1 chat_id data s = callback_query c2 chat_id data s
    ∧ ∀ (uid : String) (qIdx optIdx : Int),
        decode data = .ok (.dailyAnswer uid qIdx optIdx) →
        ∀ v, v ≠ uid →
          storeGet (callback_query c1 chat_id data s).fst v = storeGet s v := by
  constructor
  · refine callback_caller_irrelevant c1 c2 chat_id data s ?_
    intro ch q o hcontra
    rcases decode_dailyans_shape h with ⟨u, qq, oo, hd⟩ | hd
    · rw [hcontra] at hd
      exact Action.noConfusion (Except.ok.inj hd)
    · rw [hcontra] at hd
      exact Except.noConfusion hd
  · intro uid qIdx optIdx hdec v hv
    by_cases hns : (storeGet s uid).bind (fun rr => rr.pending_quiz) = none
    · rw [callback_dailyans_no_session hdec hns]
    · obtain ⟨st, hst⟩ : ∃ st, (storeGet s uid).bind (fun rr => rr.pending_quiz) = some st := by
        cases hx : (storeGet s uid).bind (fun rr => rr.pending_quiz) with
        | none => exact absurd hx hns
        | some st => exact ⟨st, rfl⟩
      obtain ⟨r, hr, hp⟩ : ∃ r, storeGet s uid = some r ∧ r.pending_quiz = some st := by
        cases hg : storeGet s uid with
        | none => rw [hg] at hst; exact Option.noConfusion hst
        | some r => rw [hg] at hst; exact ⟨r, rfl, hst⟩
      cases hq : pyIndex st.questions qIdx with
      | error e => rw [callback_dailyans_index_error hdec hst hq]
      | ok q =>
        by_cases hfin : st.questions.length ≤ st.index + 1
        · rw [callback_dailyans_finish hdec hr hp hq hfin]
          dsimp only
          rw [storeGet_modifyUser_ne hv]
        · rw [callback_dailyans_next hdec hr hp hq (by omega)]
          dsimp only
          rw [storeGet_modifyUser_ne hv]

/-- C10 witness: two distinct callers replay the same payload and get the
same result, and an unrelated user's record is untouched. -/
theorem C10_witness :
    callback_query "9" 7 "dailyans_1_0_1" c1Store
      = callback_query "8" 7 "dailyans_1_0_1" c1Store
    ∧ storeGet (callback_query "9" 7 "dailyans_1_0_1" c1Store).fst "2"
        = storeGet c1Store "2" := by
  have h := C10_payload_identity "9" "8" 7 "dailyans_1_0_1" c1Store (by decide)
  exact ⟨h.1, h.2 "1" 0 1 (by decide) "2" (by decide)⟩

/-! ## Sequential answering (C4) -/

/-- Submit answers `os` in sequence: the k-th callback carries question
index `i + k` (the "valid sequential" replay of the buttons the bot
emits), each processed by `callback_query`. -/
def runSeqAnswers (caller : String) (chat_id : Nat) (uid : String) :
    Nat → List Int → Store → Store × List Event
  | _, [], s => (s, [])
  | i, o :: os, s =>
    let r1 := callback_query caller chat_id (Action.encode (.dailyAnswer uid (i : Int) o)) s
    let r2 := runSeqAnswers caller chat_id uid (i + 1) os r1.fst
    (r2.fst, r1.snd ++ r2.snd)

theorem runSeqAnswers_nil (caller : String) (chat_id : Nat) (uid : String) (i : Nat)
    (s : Store) : runSeqAnswers caller chat_id uid i [] s = (s, []) := rfl

theorem runSeqAnswers_cons (caller : String) (chat_id : Nat) (uid : String) (i : Nat)
    (o : Int) (os : List Int) (s : Store) :
    runSeqAnswers caller chat_id uid i (o :: os) s
      = ((runSeqAnswers caller chat_id uid (i + 1) os
            (callback_query caller chat_id (Action.encode (.dailyAnswer uid (i : Int) o)) s).fst).fst,
         (callback_query caller chat_id (Action.encode (.dailyAnswer uid (i : Int) o)) s).snd
           ++ (runSeqAnswers caller chat_id uid (i + 1) os
                 (callback_query caller chat_id (Action.encode (.dailyAnswer uid (i : Int) o)) s).fst).snd) :=
  rfl

/-- How many of the answers `os`, submitted for the consecutive questions
starting at position `i` of `qs`, are correct. -/
def countCorrect (qs : List Question) : Nat → List Int → Nat
  | _, [] => 0
  | i, o :: os =>
    (match qs[i]? with
     | some q => if o = (q.a : Int) then 1 else 0
     | none => 0) + countCorrect qs (i + 1) os

/-- Running the remaining `os` valid sequential answers of a session that
sits at position `i` with score `sc` clears the session and ends with the
completion message reporting the accumulated score over the total. -/
theorem runSeq_complete (caller : String) (chat_id : Nat) (uid : String)
    (hU : noUnderscore uid) (qs : List Question) :
    ∀ (os : List Int) (i : Nat) (s : Store) (r : UserRecord) (sc : Nat),
      storeGet s uid = some r → r.pending_quiz = some ⟨qs, i, sc⟩ →
      i + os.length = qs.length → os ≠ [] →
      storeGet (runSeqAnswers caller chat_id uid i os s).fst uid
        = some { r with pending_quiz := none }
      ∧ (runSeqAnswers caller chat_id uid i os s).snd.getLast?
          = some (.send chat_id ("🏁 Quiz finished. Score: "
              ++ natStr (sc + countCorrect qs i os) ++ "/" ++ natStr qs.length)) := by
  intro os
  induction os with
  | nil =>
    intro i s r sc _ _ _ hne
    exact absurd rfl hne
  | cons o rest ih =>
    intro i s r sc hr hp hlen _
    rw [List.length_cons] at hlen
    have hi : i < qs.length := by omega
    have hq : pyIndex qs (i : Int) = .ok (qs.get ⟨i, hi⟩) := pyIndex_ofNat hi
    have hdec := decode_encode_dailyAnswer uid (i : Int) o hU
    have hcnt : countCorrect qs i (o :: rest)
        = (if o = ((qs.get ⟨i, hi⟩).a : Int) then 1 else 0) + countCorrect qs (i + 1) rest := by
      simp only [countCorrect]
      rw [List.getElem?_eq_getElem hi]
      rfl
    cases rest with
    | nil =>
      simp only [List.length_nil] at hlen
      have hfin : qs.length ≤ i + 1 := by omega
      rw [runSeqAnswers_cons, callback_dailyans_finish hdec hr hp hq hfin,
          runSeqAnswers_nil]
      dsimp only
      constructor
      · rw [storeGet_modifyUser_self, hr]
        rfl
      · have harith : (if o = ((qs.get ⟨i, hi⟩).a : Int) then sc + 1 else sc)
            = sc + countCorrect qs i [o] := by
          rw [hcnt]
          simp only [List.get_eq_getElem]
          by_cases ho : o = ((qs[i]).a : Int) <;> simp [ho, countCorrect]
        rw [List.append_nil, ← harith]
        rfl
    | cons o2 os2 =>
      rw [List.length_cons] at hlen
      have hmid : i + 1 < qs.length := by omega
      have hr1 := recordedStore_get hr ⟨qs, i, sc⟩ (qs.get ⟨i, hi⟩) o
      have ih' := ih (i + 1)
        (modifyUser uid
          (fun rr => { rr with
            pending_quiz := some (answeredState ⟨qs, i, sc⟩ (qs.get ⟨i, hi⟩) o) }) s)
        { r with pending_quiz := some (answeredState ⟨qs, i, sc⟩ (qs.get ⟨i, hi⟩) o) }
        (if o = ((qs.get ⟨i, hi⟩).a : Int) then sc + 1 else sc)
        hr1 rfl (by simp only [List.length_cons]; omega) (by simp)
      rw [runSeqAnswers_cons, callback_dailyans_next hdec hr hp hq hmid]
      dsimp only
      constructor
      · exact ih'.1
      · rw [List.getLast?_append, ih'.2]
        have harith : (if o = ((qs.get ⟨i, hi⟩).a : Int) then sc + 1 else sc)
              + countCorrect qs (i + 1) (o2 :: os2)
            = sc + countCorrect qs i (o :: o2 :: os2) := by
          rw [hcnt]
          simp only [List.get_eq_getElem]
          by_cases ho : o = ((qs[i]).a : Int) <;> simp [ho] <;> omega
        rw [harith]
        rfl

/-- C4: for a session of `n = len(questions)` questions sitting at
position `i` with score `sc`, submitting the remaining `n - i` valid
sequential answers clears the session (`pending_quiz` absent) and the
run's final emitted message is the completion summary carrying
`score/total`; while the advanced index is still below `n`, a single
valid answer instead stores the advanced session and emits the next
question. -/
theorem C4_completion (caller : String) (chat_id : Nat) (uid : String)
    (os : List Int) (s : Store) (r : UserRecord) (qs : List Question) (i sc : Nat)
    (hU : noUnderscore uid) (hr : storeGet s uid = some r)
    (hp : r.pending_quiz = some ⟨qs, i, sc⟩)
    (hlen : i + os.length = qs.length) (hne : os ≠ []) :
    (storeGet (runSeqAnswers caller chat_id uid i os s).fst uid
        = some { r with pending_quiz := none }
      ∧ (runSeqAnswers caller chat_id uid i os s).snd.getLast?
          = some (.send chat_id ("🏁 Quiz finished. Score: "
              ++ natStr (sc + countCorrect qs i os) ++ "/" ++ natStr qs.length)))
    ∧ ∀ (o : Int) (hmid : i + 1 < qs.length),
        callback_query caller chat_id (Action.encode (.dailyAnswer uid (i : Int) o)) s
          = (modifyUser uid (fun rr => { rr with pending_quiz :=
                (some ⟨qs, i + 1,
                       if o = ((qs.get ⟨i, by omega⟩).a : Int) then sc + 1 else sc⟩) }) s,
             [.ack (some "Answer recorded."),
              .send chat_id ("Q" ++ natStr (i + 2) ++ ": " ++ (qs.get ⟨i + 1, hmid⟩).q)]) := by
  constructor
  · exact runSeq_complete caller chat_id uid hU qs os i s r sc hr hp hlen hne
  · intro o hmid
    have hi : i < qs.length := by omega
    have hq : pyIndex qs (i : Int) = .ok (qs.get ⟨i, hi⟩) := pyIndex_ofNat hi
    have hdec := decode_encode_dailyAnswer uid (i : Int) o hU
    exact callback_dailyans_next hdec hr hp hq hmid

/-- C4 witness: a full two-question run (first answer correct, second
wrong) clears the session and reports `1/2`. -/
theorem C4_witness :
    storeGet (runSeqAnswers "9" 7 "1" 0 [1, 1] c3Store).fst "1"
      = some { defaultRecord with pending_quiz := none }
    ∧ (runSeqAnswers "9" 7 "1" 0 [1, 1] c3Store).snd.getLast?
        = some (.send 7 ("🏁 Quiz finished. Score: "
            ++ natStr (0 + countCorrect (QUIZ_BANK.take 2) 0 [1, 1]) ++ "/"
            ++ natStr (QUIZ_BANK.take 2).length)) :=
  (C4_completion "9" 7 "1" [1, 1] c3Store
    { defaultRecord with pending_quiz := some ⟨QUIZ_BANK.take 2, 0, 0⟩ }
    (QUIZ_BANK.take 2) 0 0
    (by decide) (by decide) rfl (by decide) (by decide)).1

/-! ## Session invariant (C8) -/

/-- The claimed invariant: every stored in-flight session satisfies
`index ≤ len(questions)` and `score ≤ index` (the `0 ≤` parts are
automatic for naturals). -/
def SessionInv (s : Store) : Prop :=
  ∀ uid r, storeGet s uid = some r → ∀ st, r.pending_quiz = some st →
    st.index ≤ st.questions.length ∧ st.score ≤ st.index

/-- The store an operation leaves behind: its result store on success, or
the store at raise time when an exception propagates. -/
def exceptStore : Except (String × Store) (Store × List Event) → Store
  | .ok (s, _) => s
  | .error (_, s) => s

/-- Stores reachable from the empty store by starting random daily
quizzes and delivering arbitrary callback payloads (answers included). -/
inductive Reachable : Store → Prop
  | init : Reachable []
  | daily (sample : List Question) (chat_id : Nat) (uid : String) {s : Store} :
      Reachable s → Reachable (exceptStore (cmd_dailyquiz sample chat_id uid s))
  | cb (caller : String) (chat_id : Nat) (data : String) {s : Store} :
      Reachable s → Reachable (callback_query caller chat_id data s).fst

theorem SessionInv_modify (uid : String) (f : UserRecord → UserRecord) {s : Store}
    (h : SessionInv s)
    (hf : ∀ r st, (f r).pending_quiz = some st →
        r.pending_quiz = some st
        ∨ (st.index ≤ st.questions.length ∧ st.score ≤ st.index)) :
    SessionInv (modifyUser uid f s) := by
  intro u rr hget st hp
  by_cases hu : u = uid
  · subst hu
    rw [storeGet_modifyUser_self] at hget
    cases hg : storeGet s u with
    | none => rw [hg] at hget; exact Option.noConfusion hget
    | some r0 =>
      rw [hg] at hget
      dsimp only [Option.map] at hget
      injection hget with h2
      rw [← h2] at hp
      rcases hf r0 st hp with hsame | hgood
      · exact h u r0 hg st hsame
      · exact hgood
  · rw [storeGet_modifyUser_ne hu] at hget
    exact h u rr hget st hp

theorem SessionInv_ensure (uid : String) {s : Store} (h : SessionInv s) :
    SessionInv (ensure_user uid s) := by
  intro u r hget st hp
  by_cases hu : u = uid
  · subst hu
    rw [storeGet_ensure_self] at hget
    injection hget with h2
    cases hg : storeGet s u with
    | some r0 =>
      rw [hg] at h2
      rw [← h2] at hp
      exact h u r0 hg st hp
    | none =>
      rw [hg] at h2
      rw [← h2] at hp
      exact Option.noConfusion hp
  · rw [storeGet_ensure_ne hu] at hget
    exact h u r hget st hp

theorem SessionInv_send_next (chat_id : Nat) (uid : String) {s : Store}
    (h : SessionInv s) :
    SessionInv (exceptStore (send_next_quiz_question chat_id uid s)) := by
  unfold send_next_quiz_question
  cases hg : storeGet s uid with
  | none => exact h
  | some r =>
    dsimp only
    cases hp : r.pending_quiz with
    | none => exact h
    | some st =>
      dsimp only
      by_cases hfin : st.questions.length ≤ st.index
      · rw [if_pos hfin]
        exact SessionInv_modify _ _ h (fun rr st2 hst2 => Option.noConfusion hst2)
      · rw [if_neg hfin]
        cases st.questions[st.index]? <;> exact h

theorem SessionInv_dailyquiz (sample : List Question) (chat_id : Nat) (uid : String)
    {s : Store} (h : SessionInv s) :
    SessionInv (exceptStore (cmd_dailyquiz sample chat_id uid s)) := by
  have h2 : SessionInv
      (modifyUser uid (fun r => { r with pending_quiz := some ⟨sample, 0, 0⟩ })
        (ensure_user uid s)) := by
    refine SessionInv_modify _ _ (SessionInv_ensure uid h) (fun r st hst => Or.inr ?_)
    injection hst with hst2
    rw [← hst2]
    exact ⟨Nat.zero_le _, Nat.le_refl 0⟩
  exact SessionInv_send_next chat_id uid h2

theorem callback_fst_of_error {caller : String} {chat_id : Nat} {data : String}
    {s : Store} {e : DecodeErr} (hd : decode data = .error e) :
    (callback_query caller chat_id data s).fst = s := by
  unfold callback_query callback_query_core
  rw [hd]
  cases e <;> rfl

theorem callback_fst_read {caller : String} {chat_id : Nat} {data : String}
    {s : Store} {ch : String} (hd : decode data = .ok (.read ch)) :
    (callback_query caller chat_id data s).fst = s := by
  unfold callback_query callback_query_core
  rw [hd]
  dsimp only
  cases BOOK_MAP ch <;> rfl

theorem callback_fst_quizStart {caller : String} {chat_id : Nat} {data : String}
    {s : Store} {ch : String} (hd : decode data = .ok (.quizStart ch)) :
    (callback_query caller chat_id data s).fst = s := by
  unfold callback_query callback_query_core
  rw [hd]
  dsimp only
  cases BOOK_MAP ch with
  | none => rfl
  | some c =>
    dsimp only
    cases c.quiz[0]? <;> rfl

theorem callback_fst_quizAnswer {caller : String} {chat_id : Nat} {data : String}
    {s : Store} {ch : String} {qI oI : Int}
    (hd : decode data = .ok (.quizAnswer ch qI oI)) :
    (callback_query caller chat_id data s).fst = s
    ∨ ∃ outcome : Nat, (callback_query caller chat_id data s).fst
        = modifyUser caller (fun r => { r with scores := appendScore ch outcome r.scores })
            (ensure_user caller s) := by
  unfold callback_query callback_query_core
  rw [hd]
  dsimp only
  cases BOOK_MAP ch with
  | none => left; rfl
  | some c =>
    dsimp only
    cases pyIndex c.quiz qI with
    | error e => left; rfl
    | ok quiz =>
      dsimp only
      cases quiz.opts[quiz.a]? with
      | none => left; rfl
      | some t =>
        right
        exact ⟨if oI = (quiz.a : Int) then 1 else 0, rfl⟩

theorem callback_fst_dailyAnswer {caller : String} {chat_id : Nat} {data : String}
    {s : Store} {u : String} {qI oI : Int}
    (hd : decode data = .ok (.dailyAnswer u qI oI)) :
    (callback_query caller chat_id data s).fst = s
    ∨ (∃ st q, (storeGet s u).bind (fun r => r.pending_quiz) = some st
         ∧ pyIndex st.questions qI = .ok q
         ∧ ((callback_query caller chat_id data s).fst
              = modifyUser u (fun r => { r with pending_quiz := none }) s
            ∨ ((answeredState st q oI).index < st.questions.length
               ∧ (callback_query caller chat_id data s).fst
                   = modifyUser u (fun r => { r with
                       pending_quiz := some (answeredState st q oI) }) s))) := by
  by_cases hns : (storeGet s u).bind (fun r => r.pending_quiz) = none
  · left
    rw [callback_dailyans_no_session hd hns]
  · obtain ⟨st, hst⟩ : ∃ st, (storeGet s u).bind (fun r => r.pending_quiz) = some st := by
      cases hx : (storeGet s u).bind (fun r => r.pending_quiz) with
      | none => exact absurd hx hns
      | some st => exact ⟨st, rfl⟩
    obtain ⟨r, hr, hp⟩ : ∃ r, storeGet s u = some r ∧ r.pending_quiz = some st := by
      cases hg : storeGet s u with
      | none => rw [hg] at hst; exact Option.noConfusion hst
      | some r => rw [hg] at hst; exact ⟨r, rfl, hst⟩
    cases hq : pyIndex st.questions qI with
    | error e =>
      left
      rw [callback_dailyans_index_error hd hst hq]
    | ok q =>
      right
      refine ⟨st, q, hst, hq, ?_⟩
      by_cases hfin : st.questions.length ≤ st.index + 1
      · left
        rw [callback_dailyans_finish hd hr hp hq hfin]
      · right
        refine ⟨by show st.index + 1 < _; omega, ?_⟩
        rw [callback_dailyans_next hd hr hp hq (by omega)]

theorem SessionInv_callback (caller : String) (chat_id : Nat) (data : String)
    {s : Store} (h : SessionInv s) :
    SessionInv (callback_query caller chat_id data s).fst := by
  cases hd : decode data with
  | error e => rw [callback_fst_of_error hd]; exact h
  | ok a =>
    cases a with
    | read ch => rw [callback_fst_read hd]; exact h
    | quizStart ch => rw [callback_fst_quizStart hd]; exact h
    | quizAnswer ch qI oI =>
      rcases callback_fst_quizAnswer hd with heq | ⟨outcome, heq⟩
      · rw [heq]; exact h
      · rw [heq]
        exact SessionInv_modify _ _ (SessionInv_ensure caller h) (fun r st hst => Or.inl hst)
    | dailyAnswer u qI oI =>
      rcases callback_fst_dailyAnswer hd with heq | ⟨st, q, hst, hq, hcase⟩
      · rw [heq]; exact h
      · obtain ⟨r, hr, hp⟩ : ∃ r, storeGet s u = some r ∧ r.pending_quiz = some st := by
          cases hg : storeGet s u with
          | none => rw [hg] at hst; exact Option.noConfusion hst
          | some r => rw [hg] at hst; exact ⟨r, rfl, hst⟩
        have hInv := h u r hr st hp
        rcases hcase with heq | ⟨hlt, heq⟩
        · rw [heq]
          exact SessionInv_modify _ _ h (fun rr st2 hst2 => Option.noConfusion hst2)
        · rw [heq]
          refine SessionInv_modify _ _ h (fun rr st2 hst2 => Or.inr ?_)
          injection hst2 with h2
          rw [← h2]
          refine ⟨le_of_lt hlt, ?_⟩
          show (if oI = (q.a : Int) then st.score + 1 else st.score) ≤ st.index + 1
          by_cases ho : oI = (q.a : Int) <;> simp [ho] <;> omega

/-- C8: every store reachable by starting random quizzes and delivering
arbitrary callback payloads satisfies the session invariant:
`0 ≤ index ≤ len(questions)` and `0 ≤ score ≤ index` for every stored
in-flight session. -/
theorem C8_invariant {s : Store} (h : Reachable s) : SessionInv s := by
  induction h with
  | init => intro uid r hget st hp; exact Option.noConfusion hget
  | daily sample chat_id uid _ ih => exact SessionInv_dailyquiz sample chat_id uid ih
  | cb caller chat_id data _ ih => exact SessionInv_callback caller chat_id data ih

/-- C8 witness: the invariant at the store reached by starting a quiz
over the whole bank and answering its first question. -/
theorem C8_witness :
    SessionInv (callback_query "9" 7 "dailyans_1_0_1"
      (exceptStore (cmd_dailyquiz QUIZ_BANK 7 "1" []))).fst :=
  C8_invariant (Reachable.cb "9" 7 "dailyans_1_0_1"
    (Reachable.daily QUIZ_BANK 7 "1" Reachable.init))

end TestBook
